import Mathlib

/-!
Verification of `metrics_mcp_server.py`, a read-only MCP tool server that maps
four typed tool calls to parameterized PostgreSQL queries:

* `get_metrics_summary(service_name?, minutes=10)` — windowed aggregation over
  the `service_metrics` table, grouped and ordered by `service_name`;
* `search_event_logs(keyword, service_name?, level?, limit=50)` — `ILIKE`
  keyword search over `event_logs`, ordered by `log_ts DESC`, capped at `limit`;
* `get_hop_trace(trace_id)` — hops of one trace from `hop_trace`, ordered by
  `hop_index ASC`;
* `get_all_hop_traces(limit=100)` — recent hops across all traces, ordered by
  `hop_ts DESC, trace_id, hop_index ASC`, capped at `limit`.

The external relational store is shallowly embedded: each table is a list of
typed rows, `NOW()` is an explicit integer instant (seconds), timestamps are
integers (the ISO-8601 serialization of a stored instant is modelled by the
instant itself), SQL numerics are rationals, and the `WHERE`/`GROUP BY`/
`ORDER BY`/`LIMIT` pipeline of each statement is evaluated by filtering,
grouping, a total-order sort and `List.take`.  `ORDER BY` ties not covered by
the listed sort keys are resolved by the stability of the model's sort; the
source leaves them to the database.  `LIMIT` takes a natural number: a negative
limit makes PostgreSQL raise, which the error taxonomy of the spec treats as a
fatal, uncaught failure of the call, so no row list is produced at all.
-/

namespace MetricsMCP

/-! ## PostgreSQL `LIKE` / `ILIKE` pattern semantics

Modelled from the spec's black-box store collaborator (the server sends
`message ILIKE %s` with pattern `f"%{keyword}%"`): `%` matches any sequence of
characters, `_` matches exactly one character, backslash escapes the following
character, and the pattern must cover the whole string.  A pattern ending in a
lone escape character makes PostgreSQL raise an error, i.e. that call yields no
rows; the matcher returns `false` there.  `ILIKE` additionally case-folds both
operands, modelled with ASCII `Char.toLower`. -/

/-- One lexed `LIKE`-pattern token: `%`, `_`, or a literal character. -/
inductive LikeTok where
  | anyseq
  | anyone
  | lit (c : Char)
deriving DecidableEq

/-- Lex a `LIKE` pattern, resolving backslash escapes; `none` when the pattern
ends in a lone escape character (a PostgreSQL error). -/
def likeLex : List Char → Option (List LikeTok)
  | [] => some []
  | p :: ps =>
    if p = '%' then (likeLex ps).map (LikeTok.anyseq :: ·)
    else if p = '_' then (likeLex ps).map (LikeTok.anyone :: ·)
    else if p = '\\' then
      match ps with
      | [] => none
      | c :: ps2 => (likeLex ps2).map (LikeTok.lit c :: ·)
    else (likeLex ps).map (LikeTok.lit p :: ·)

/-- `anyTail f s` holds when `f` accepts some suffix of `s`; this is how a `%`
token consumes an arbitrary prefix of the remaining string. -/
def anyTail (f : List Char → Bool) : List Char → Bool
  | [] => f []
  | c :: s => f (c :: s) || anyTail f s

/-- Run a lexed `LIKE` pattern against a string; the pattern must match the
whole string. -/
def likeRun : List LikeTok → List Char → Bool
  | [], s => s.isEmpty
  | .anyseq :: ps, s => anyTail (likeRun ps) s
  | .anyone :: ps, s =>
    match s with
    | [] => false
    | _ :: s2 => likeRun ps s2
  | .lit c :: ps, s =>
    match s with
    | [] => false
    | d :: s2 => (c == d) && likeRun ps s2

/-- `field ILIKE pattern`: case-fold both operands (ASCII), lex the pattern and
run it; a malformed pattern (lone trailing escape) matches nothing. -/
def ilike (field pattern : String) : Bool :=
  match likeLex (pattern.data.map Char.toLower) with
  | none => false
  | some toks => likeRun toks (field.data.map Char.toLower)

/-- The claim language's "contains the keyword as a case-insensitive
substring": the case-folded keyword is an infix of the case-folded field. -/
def containsSubstrCI (keyword field : String) : Bool :=
  decide ((keyword.data.map Char.toLower) <:+: (field.data.map Char.toLower))

/-- A keyword free of the `LIKE` metacharacters `%`, `_` and `\`. -/
def NoLikeWild (l : List Char) : Prop :=
  ∀ c ∈ l, c ≠ '%' ∧ c ≠ '_' ∧ c ≠ '\\'

instance (l : List Char) : Decidable (NoLikeWild l) :=
  inferInstanceAs (Decidable (∀ c ∈ l, _ ∧ _ ∧ _))

theorem likeLex_cons (p : Char) (ps : List Char) :
    likeLex (p :: ps) =
      if p = '%' then (likeLex ps).map (LikeTok.anyseq :: ·)
      else if p = '_' then (likeLex ps).map (LikeTok.anyone :: ·)
      else if p = '\\' then
        match ps with
        | [] => none
        | c :: ps2 => (likeLex ps2).map (LikeTok.lit c :: ·)
      else (likeLex ps).map (LikeTok.lit p :: ·) := by
  cases ps <;> rfl

theorem likeRun_anyseq (ps : List LikeTok) (s : List Char) :
    likeRun (.anyseq :: ps) s = anyTail (likeRun ps) s := rfl

theorem likeRun_lit_nil (c : Char) (ps : List LikeTok) :
    likeRun (.lit c :: ps) [] = false := rfl

theorem likeRun_lit_cons (c : Char) (ps : List LikeTok) (d : Char) (s : List Char) :
    likeRun (.lit c :: ps) (d :: s) = ((c == d) && likeRun ps s) := rfl

theorem anyTail_eq_true (f : List Char → Bool) (s : List Char) :
    anyTail f s = true ↔ ∃ t, t <:+ s ∧ f t = true := by
  induction s with
  | nil =>
    constructor
    · intro h
      exact ⟨[], List.suffix_rfl, h⟩
    · rintro ⟨t, ht, hf⟩
      rwa [List.suffix_nil.mp ht] at hf
  | cons c s ih =>
    simp only [anyTail, Bool.or_eq_true, ih]
    constructor
    · rintro (h | ⟨t, ht, hf⟩)
      · exact ⟨c :: s, List.suffix_rfl, h⟩
      · exact ⟨t, ht.trans (List.suffix_cons c s), hf⟩
    · rintro ⟨t, ht, hf⟩
      rcases List.suffix_cons_iff.mp ht with h | h
      · exact Or.inl (h ▸ hf)
      · exact Or.inr ⟨t, h, hf⟩

theorem likeLex_noWild (l : List Char) (h : NoLikeWild l) :
    likeLex l = some (l.map LikeTok.lit) := by
  induction l with
  | nil => rfl
  | cons c cs ih =>
    obtain ⟨h1, h2, h3⟩ := h c (List.mem_cons_self c cs)
    rw [likeLex_cons, if_neg h1, if_neg h2, if_neg h3,
      ih (fun d hd => h d (List.mem_cons_of_mem c hd))]
    rfl

theorem likeLex_append_pct (l : List Char) (h : NoLikeWild l) :
    likeLex (l ++ ['%']) = some (l.map LikeTok.lit ++ [.anyseq]) := by
  induction l with
  | nil => rfl
  | cons c cs ih =>
    obtain ⟨h1, h2, h3⟩ := h c (List.mem_cons_self c cs)
    rw [List.cons_append, likeLex_cons, if_neg h1, if_neg h2, if_neg h3,
      ih (fun d hd => h d (List.mem_cons_of_mem c hd))]
    rfl

/-- A run of literal tokens followed by one `%` accepts exactly the strings
with the literals as a prefix. -/
theorem likeRun_lits_pct (kw : List Char) (s : List Char) :
    likeRun (kw.map LikeTok.lit ++ [.anyseq]) s = true ↔ kw <+: s := by
  induction kw generalizing s with
  | nil =>
    simp only [List.map_nil, List.nil_append, likeRun_anyseq, anyTail_eq_true]
    constructor
    · intro _
      exact List.nil_prefix
    · intro _
      exact ⟨[], List.nil_suffix, rfl⟩
  | cons k ks ih =>
    cases s with
    | nil =>
      simp only [List.map_cons, List.cons_append, likeRun_lit_nil]
      simp [List.prefix_nil]
    | cons c s2 =>
      simp only [List.map_cons, List.cons_append, likeRun_lit_cons,
        Bool.and_eq_true, beq_iff_eq, ih, List.cons_prefix_cons]

/-- The pattern `%kw%` (with `kw` free of metacharacters) accepts exactly the
strings containing `kw` as an infix. -/
theorem likeRun_pct_lits_pct (kw : List Char) (s : List Char) :
    likeRun (.anyseq :: (kw.map LikeTok.lit ++ [.anyseq])) s = true ↔ kw <:+: s := by
  rw [likeRun_anyseq, anyTail_eq_true]
  constructor
  · rintro ⟨t, hts, hm⟩
    exact List.infix_iff_prefix_suffix.mpr ⟨t, (likeRun_lits_pct kw t).mp hm, hts⟩
  · intro h
    obtain ⟨t, h1, h2⟩ := List.infix_iff_prefix_suffix.mp h
    exact ⟨t, h2, (likeRun_lits_pct kw t).mpr h1⟩

theorem char_toNat_ofNat (n : Nat) (h : n.isValidChar) : (Char.ofNat n).toNat = n := by
  unfold Char.ofNat
  rw [dif_pos h]
  simp [Char.ofNatAux, Char.toNat, UInt32.toNat, BitVec.toNat_ofNatLt]

/-- ASCII lowercasing cannot produce a character below code point 97 out of a
different character; in particular it cannot create a `LIKE` metacharacter. -/
theorem toLower_ne_of_lt (c w : Char) (hw : w.toNat < 97) (h : c ≠ w) :
    Char.toLower c ≠ w := by
  unfold Char.toLower
  simp only
  split
  · rename_i hr
    intro hc
    have hv : (c.toNat + 32).isValidChar := Or.inl (by omega)
    have h2 := congrArg Char.toNat hc
    rw [char_toNat_ofNat _ hv] at h2
    omega
  · exact h

theorem noLikeWild_map_toLower (l : List Char) (h : NoLikeWild l) :
    NoLikeWild (l.map Char.toLower) := by
  intro c hc
  rcases List.mem_map.mp hc with ⟨c0, hc0, rfl⟩
  obtain ⟨h1, h2, h3⟩ := h c0 hc0
  exact ⟨toLower_ne_of_lt _ _ (by decide) h1, toLower_ne_of_lt _ _ (by decide) h2,
    toLower_ne_of_lt _ _ (by decide) h3⟩

/-- `ILIKE` with pattern `f"%{keyword}%"` for a metacharacter-free keyword is
exactly case-insensitive substring containment. -/
theorem ilike_wrap_iff (keyword field : String) (hk : NoLikeWild keyword.data) :
    ilike field ("%" ++ keyword ++ "%") = true ↔ containsSubstrCI keyword field = true := by
  have hdata : ("%" ++ keyword ++ "%").data = '%' :: (keyword.data ++ ['%']) := by
    rw [String.data_append, String.data_append]
    rfl
  have hmap : ("%" ++ keyword ++ "%").data.map Char.toLower =
      '%' :: (keyword.data.map Char.toLower ++ ['%']) := by
    rw [hdata, List.map_cons, List.map_append]
    rfl
  have hlow := noLikeWild_map_toLower keyword.data hk
  have hlex : likeLex (("%" ++ keyword ++ "%").data.map Char.toLower) =
      some (.anyseq :: ((keyword.data.map Char.toLower).map LikeTok.lit ++ [.anyseq])) := by
    rw [hmap, likeLex_cons, if_pos rfl, likeLex_append_pct _ hlow]
    rfl
  rw [ilike, hlex]
  simp only [containsSubstrCI, decide_eq_true_eq]
  exact likeRun_pct_lits_pct _ _

/-! ## Store rows and output records

One structure per table of the store schema (§6 of the spec) and one per
normalized output record shape.  Numeric measures are rationals; timestamps
are integer instants. -/

/-- A row of `service_metrics(service_name, bucket_ts, tps, error_rate, latency_p95)`. -/
structure ServiceMetricsRow where
  service_name : String
  bucket_ts : Int
  tps : Rat
  error_rate : Rat
  latency_p95 : Rat
deriving DecidableEq

/-- A row of `event_logs(service_name, log_ts, level, code, message)`. -/
structure EventLogRow where
  service_name : String
  log_ts : Int
  level : String
  code : String
  message : String
deriving DecidableEq

/-- A row of `hop_trace(trace_id, hop_index, node_name, hop_ts, latency_ms, status)`. -/
structure HopRow where
  trace_id : String
  hop_index : Int
  node_name : String
  hop_ts : Int
  latency_ms : Rat
  status : String
deriving DecidableEq

/-- One record returned by `get_metrics_summary`; `note` is present (`some`)
only on the zero-row placeholder. -/
structure MetricsSummaryRecord where
  service_name : String
  minutes : Int
  avg_tps : Rat
  max_tps : Rat
  avg_error_rate : Rat
  avg_latency_p95 : Rat
  note : Option String
deriving DecidableEq

/-- One record returned by `search_event_logs`; `timestamp` models the
ISO-8601 rendering of `log_ts` by the instant itself. -/
structure EventLogRecord where
  service_name : String
  timestamp : Int
  level : String
  code : String
  message : String
deriving DecidableEq

/-- One record returned by `get_hop_trace` / `get_all_hop_traces`. -/
structure HopRecord where
  trace_id : String
  hop_index : Int
  node_name : String
  timestamp : Int
  latency_ms : Rat
  status : String
deriving DecidableEq

/-- Python truthiness of an optional string argument: `None` and `""` are
falsy, which is what every `if service_name:` / `if level:` guard tests. -/
def truthy : Option String → Bool
  | none => false
  | some s => !s.isEmpty

/-- One optional exact-match filter: the source appends `col = %s` to the
`WHERE` clause only when the argument is truthy, so a `none` or `""` argument
constrains nothing. -/
def optFilter : Option String → String → Bool
  | none, _ => true
  | some s, v => if s.isEmpty then true else v == s

/-- Python's `service_name or "<all>"`: the fallback is used for `None` and
for the empty string alike. -/
def orAll : Option String → String
  | none => "<all>"
  | some s => if s.isEmpty then "<all>" else s

/-! ## `get_metrics_summary` -/

/-- `WHERE bucket_ts >= (NOW() - (%s || ' minutes')::interval)` plus the
optional `AND service_name = %s`. -/
def metricsRowMatches (now minutes : Int) (service_name : Option String)
    (r : ServiceMetricsRow) : Bool :=
  decide (now - minutes * 60 ≤ r.bucket_ts) && optFilter service_name r.service_name

/-- `AVG(x)` over a group (SQL average; the group is never empty under
`GROUP BY`, so the junk value on `[]` is never used). -/
def avgQ (l : List Rat) : Rat := l.sum / l.length

/-- `MAX(x)` over a group (junk value on the empty list, never used). -/
def maxQ : List Rat → Rat
  | [] => 0
  | x :: xs => xs.foldl max x

/-- `GROUP BY service_name ORDER BY service_name`: the distinct service names
of the matching rows, sorted ascending. -/
def serviceGroups (matching : List ServiceMetricsRow) : List String :=
  List.insertionSort (fun a b : String => a ≤ b) (matching.map (·.service_name)).dedup

/-- The aggregate row of one `GROUP BY` group. -/
def aggRecord (minutes : Int) (matching : List ServiceMetricsRow) (n : String) :
    MetricsSummaryRecord :=
  let g := matching.filter (·.service_name == n)
  { service_name := n
    minutes := minutes
    avg_tps := avgQ (g.map (·.tps))
    max_tps := maxQ (g.map (·.tps))
    avg_error_rate := avgQ (g.map (·.error_rate))
    avg_latency_p95 := avgQ (g.map (·.latency_p95))
    note := none }

/-- The explanatory annotation of the zero-row placeholder record. -/
def noDataNote : String := "해당 기간에 데이터가 없습니다."

/-- The rows the `get_metrics_summary` statement fetches: one aggregate row
per `GROUP BY` group, in `ORDER BY service_name` order. -/
def metricsRows (now : Int) (db : List ServiceMetricsRow)
    (service_name : Option String) (minutes : Int) : List MetricsSummaryRecord :=
  (serviceGroups (db.filter (metricsRowMatches now minutes service_name))).map
    (aggRecord minutes (db.filter (metricsRowMatches now minutes service_name)))

/-- `get_metrics_summary(service_name?, minutes=10)` evaluated against store
contents `db` at instant `now`. -/
def get_metrics_summary (now : Int) (db : List ServiceMetricsRow)
    (service_name : Option String) (minutes : Int) : List MetricsSummaryRecord :=
  if (metricsRows now db service_name minutes).isEmpty then
    [{ service_name := orAll service_name
       minutes := minutes
       avg_tps := 0
       max_tps := 0
       avg_error_rate := 0
       avg_latency_p95 := 0
       note := some noDataNote }]
  else
    metricsRows now db service_name minutes

/-! ## `search_event_logs` -/

/-- `WHERE (message ILIKE %s OR code ILIKE %s)` with pattern `f"%{keyword}%"`,
intersected with the optional exact-match conditions. -/
def eventLogMatches (keyword : String) (service_name level : Option String)
    (r : EventLogRow) : Bool :=
  (ilike r.message ("%" ++ keyword ++ "%") || ilike r.code ("%" ++ keyword ++ "%"))
    && optFilter service_name r.service_name
    && optFilter level r.level

/-- `ORDER BY log_ts DESC`. -/
def eventLogLe (a b : EventLogRow) : Prop := b.log_ts ≤ a.log_ts

instance : DecidableRel eventLogLe :=
  fun a b => inferInstanceAs (Decidable (b.log_ts ≤ a.log_ts))

instance : IsTotal EventLogRow eventLogLe :=
  ⟨fun a b => le_total b.log_ts a.log_ts⟩

instance : IsTrans EventLogRow eventLogLe :=
  ⟨fun _ _ _ h1 h2 => le_trans h2 h1⟩

/-- Projection of a fetched log row into the returned record shape. -/
def eventLogToRecord (r : EventLogRow) : EventLogRecord :=
  { service_name := r.service_name
    timestamp := r.log_ts
    level := r.level
    code := r.code
    message := r.message }

/-- `search_event_logs(keyword, service_name?, level?, limit=50)` evaluated
against store contents `db`. -/
def search_event_logs (db : List EventLogRow) (keyword : String)
    (service_name level : Option String) (limit : Nat) : List EventLogRecord :=
  (((db.filter (eventLogMatches keyword service_name level)).insertionSort
      eventLogLe).take limit).map eventLogToRecord

/-! ## `get_hop_trace` and `get_all_hop_traces` -/

/-- `ORDER BY hop_index ASC`. -/
def hopIndexLe (a b : HopRow) : Prop := a.hop_index ≤ b.hop_index

instance : DecidableRel hopIndexLe :=
  fun a b => inferInstanceAs (Decidable (a.hop_index ≤ b.hop_index))

instance : IsTotal HopRow hopIndexLe :=
  ⟨fun a b => le_total a.hop_index b.hop_index⟩

instance : IsTrans HopRow hopIndexLe :=
  ⟨fun _ _ _ h1 h2 => le_trans h1 h2⟩

/-- Sort key of `ORDER BY hop_ts DESC, trace_id, hop_index ASC`: negating the
timestamp turns the descending primary key into an ascending lexicographic
one. -/
def hopSortKey (r : HopRow) : Lex (Int × Lex (String × Int)) :=
  toLex (-r.hop_ts, toLex (r.trace_id, r.hop_index))

/-- The row order of `ORDER BY hop_ts DESC, trace_id, hop_index ASC`. -/
def hopTsLex (a b : HopRow) : Prop := hopSortKey a ≤ hopSortKey b

instance : DecidableRel hopTsLex :=
  fun a b => inferInstanceAs (Decidable (hopSortKey a ≤ hopSortKey b))

instance : IsTotal HopRow hopTsLex :=
  ⟨fun a b => le_total (hopSortKey a) (hopSortKey b)⟩

instance : IsTrans HopRow hopTsLex :=
  ⟨fun _ _ _ h1 h2 => le_trans h1 h2⟩

/-- Projection of a fetched hop row into the returned record shape. -/
def hopToRecord (r : HopRow) : HopRecord :=
  { trace_id := r.trace_id
    hop_index := r.hop_index
    node_name := r.node_name
    timestamp := r.hop_ts
    latency_ms := r.latency_ms
    status := r.status }

/-- `get_hop_trace(trace_id)` evaluated against store contents `db`. -/
def get_hop_trace (db : List HopRow) (trace_id : String) : List HopRecord :=
  ((db.filter (·.trace_id == trace_id)).insertionSort hopIndexLe).map hopToRecord

/-- `get_all_hop_traces(limit=100)` evaluated against store contents `db`. -/
def get_all_hop_traces (db : List HopRow) (limit : Nat) : List HopRecord :=
  ((db.insertionSort hopTsLex).take limit).map hopToRecord

/-! ## SQL text and bound parameters

A second, syntactic view of the same source lines: each operation's SQL string
is assembled exactly as the source assembles it (a base string, conditionally
extended fragments, `" AND ".join`), with every user-supplied value routed into
a positional parameter list.  Whitespace of the Python triple-quoted literals
is collapsed; the fragments and their order are the source's. -/

/-- One positional query parameter as handed to `cursor.execute`. -/
inductive SqlParam where
  | int (i : Int)
  | str (s : String)
deriving DecidableEq

/-- SQL text and parameter list built by `get_metrics_summary`. -/
def get_metrics_summary_query (service_name : Option String) (minutes : Int) :
    String × List SqlParam :=
  let base_sql := "SELECT service_name, AVG(tps)::float AS avg_tps, " ++
    "MAX(tps)::float AS max_tps, AVG(error_rate)::float AS avg_error_rate, " ++
    "AVG(latency_p95)::float AS avg_latency_p95 FROM service_metrics " ++
    "WHERE bucket_ts >= (NOW() - (%s || \x27 minutes\x27)::interval)"
  let params : List SqlParam := [.int minutes]
  let step :=
    if truthy service_name then
      (base_sql ++ " AND service_name = %s", params ++ [.str (service_name.getD "")])
    else
      (base_sql, params)
  (step.1 ++ " GROUP BY service_name ORDER BY service_name", step.2)

/-- SQL text and parameter list built by `search_event_logs`; the keyword is
wrapped into the `%…%` pattern inside a parameter, never into the SQL text. -/
def search_event_logs_query (keyword : String) (service_name level : Option String)
    (limit : Int) : String × List SqlParam :=
  let conditions := ["(message ILIKE %s OR code ILIKE %s)"]
  let params : List SqlParam :=
    [.str ("%" ++ keyword ++ "%"), .str ("%" ++ keyword ++ "%")]
  let step1 :=
    if truthy service_name then
      (conditions ++ ["service_name = %s"], params ++ [.str (service_name.getD "")])
    else
      (conditions, params)
  let step2 :=
    if truthy level then
      (step1.1 ++ ["level = %s"], step1.2 ++ [.str (level.getD "")])
    else
      step1
  let where_clause := String.intercalate " AND " step2.1
  ("SELECT service_name, log_ts, level, code, message FROM event_logs WHERE " ++
      where_clause ++ " ORDER BY log_ts DESC LIMIT %s",
    step2.2 ++ [.int limit])

/-- SQL text and parameter list built by `get_hop_trace`. -/
def get_hop_trace_query (trace_id : String) : String × List SqlParam :=
  ("SELECT trace_id, hop_index, node_name, hop_ts, latency_ms, status " ++
      "FROM hop_trace WHERE trace_id = %s ORDER BY hop_index ASC",
    [.str trace_id])

/-- SQL text and parameter list built by `get_all_hop_traces`. -/
def get_all_hop_traces_query (limit : Int) : String × List SqlParam :=
  ("SELECT trace_id, hop_index, node_name, hop_ts, latency_ms, status " ++
      "FROM hop_trace ORDER BY hop_ts DESC, trace_id, hop_index ASC LIMIT %s",
    [.int limit])

/-! ## Connection lifecycle

A small exception-plus-state view of each operation body: the state records
which handles are open, a failing step short-circuits the rest of the body
(Python exception propagation), and there is no `try`/`finally` anywhere in
the source, so the two explicit `close()` calls are ordinary sequenced
statements. -/

/-- Which handles the call currently holds open. -/
structure ConnState where
  conn_open : Bool
  cursor_open : Bool
deriving DecidableEq

/-- A step of an operation body: it may produce a value (`some`) or raise
(`none`), and updates the handle state. -/
def DbProc (α : Type) := ConnState → Option α × ConnState

/-- Sequencing with exception propagation: once a step raises, later steps
(including the `close()` calls) never run. -/
def DbProc.bind {α β : Type} (m : DbProc α) (f : α → DbProc β) : DbProc β :=
  fun s =>
    match m s with
    | (some a, s2) => f a s2
    | (none, s2) => (none, s2)

/-- A pure step. -/
def DbProc.pure {α : Type} (a : α) : DbProc α := fun s => (some a, s)

/-- `conn = get_conn()`. -/
def openConnP : DbProc Unit := fun s => (some (), { s with conn_open := true })

/-- `cur = conn.cursor()`. -/
def openCursorP : DbProc Unit := fun s => (some (), { s with cursor_open := true })

/-- `cur.execute(...)` followed by `cur.fetchall()`; `ok` abstracts whether
the store raises (connectivity or query failure) during this step. -/
def executeP (ok : Bool) : DbProc Unit :=
  fun s => (if ok then some () else none, s)

/-- `cur.close()`. -/
def closeCursorP : DbProc Unit := fun s => (some (), { s with cursor_open := false })

/-- `conn.close()`. -/
def closeConnP : DbProc Unit := fun s => (some (), { s with conn_open := false })

/-- The statement sequence shared by all four operation bodies: connect, open
a cursor, execute and fetch, close the cursor, close the connection, return
the projected records. -/
def toolBody {α : Type} (ok : Bool) (result : α) : DbProc α :=
  DbProc.bind openConnP fun _ =>
  DbProc.bind openCursorP fun _ =>
  DbProc.bind (executeP ok) fun _ =>
  DbProc.bind closeCursorP fun _ =>
  DbProc.bind closeConnP fun _ =>
  DbProc.pure result

/-- `get_metrics_summary` as a stateful body. -/
def get_metrics_summary_proc (now : Int) (db : List ServiceMetricsRow)
    (service_name : Option String) (minutes : Int) (ok : Bool) :
    DbProc (List MetricsSummaryRecord) :=
  toolBody ok (get_metrics_summary now db service_name minutes)

/-- `search_event_logs` as a stateful body. -/
def search_event_logs_proc (db : List EventLogRow) (keyword : String)
    (service_name level : Option String) (limit : Nat) (ok : Bool) :
    DbProc (List EventLogRecord) :=
  toolBody ok (search_event_logs db keyword service_name level limit)

/-- `get_hop_trace` as a stateful body. -/
def get_hop_trace_proc (db : List HopRow) (trace_id : String) (ok : Bool) :
    DbProc (List HopRecord) :=
  toolBody ok (get_hop_trace db trace_id)

/-- `get_all_hop_traces` as a stateful body. -/
def get_all_hop_traces_proc (db : List HopRow) (limit : Nat) (ok : Bool) :
    DbProc (List HopRecord) :=
  toolBody ok (get_all_hop_traces db limit)

/-! ## Helper lemmas -/

/-- An element of a sorted-and-truncated list comes from the original list. -/
theorem mem_of_mem_sortTake {α : Type} (r : α → α → Prop) [DecidableRel r]
    (l : List α) (n : Nat) (x : α) (h : x ∈ (List.insertionSort r l).take n) :
    x ∈ l :=
  (List.perm_insertionSort r l).subset ((List.take_sublist n _).subset h)

/-- A duplicate-free list whose elements all equal `a` is `[]` or `[a]`. -/
theorem nodup_const_eq_nil_or_singleton {α : Type} (l : List α) (a : α)
    (hn : l.Nodup) (h : ∀ x ∈ l, x = a) : l = [] ∨ l = [a] := by
  cases l with
  | nil => exact Or.inl rfl
  | cons x t =>
    refine Or.inr ?_
    have hx := h x (List.mem_cons_self x t)
    subst hx
    have ht : t = [] := by
      rw [List.eq_nil_iff_forall_not_mem]
      intro y hy
      have hyx := h y (List.mem_cons_of_mem x hy)
      exact (List.nodup_cons.mp hn).1 (hyx ▸ hy)
    rw [ht]

/-- The `hop_ts DESC, trace_id, hop_index ASC` order, read back in the claim's
terms. -/
theorem hopTsLex_elim (a b : HopRow) (h : hopTsLex a b) :
    b.hop_ts ≤ a.hop_ts
      ∧ (a.hop_ts = b.hop_ts → a.trace_id ≤ b.trace_id)
      ∧ (a.hop_ts = b.hop_ts ∧ a.trace_id = b.trace_id → a.hop_index ≤ b.hop_index) := by
  unfold hopTsLex hopSortKey at h
  rw [Prod.Lex.le_iff] at h
  rcases h with h | ⟨he, h2⟩
  · simp only at h
    refine ⟨by omega, fun hts => absurd hts (by omega), fun hts => absurd hts.1 (by omega)⟩
  · simp only at he h2
    rw [Prod.Lex.le_iff] at h2
    simp only at h2
    have hts : a.hop_ts = b.hop_ts := by omega
    refine ⟨le_of_eq hts.symm, fun _ => ?_, fun ⟨_, htid⟩ => ?_⟩
    · rcases h2 with h2 | ⟨h2, _⟩
      · exact le_of_lt h2
      · exact le_of_eq h2
    · rcases h2 with h2 | ⟨_, h2⟩
      · exact absurd (htid ▸ h2) (lt_irrefl _)
      · exact h2

/-! ## Claims -/

/-- C5: every call of `search_event_logs` with limit `L` returns at most `L`
records, sorted by timestamp in descending order (most recent first). -/
theorem searchLogs_limit_sorted (db : List EventLogRow) (keyword : String)
    (service_name level : Option String) (limit : Nat) :
    (search_event_logs db keyword service_name level limit).length ≤ limit
      ∧ List.Pairwise (fun a b : EventLogRecord => b.timestamp ≤ a.timestamp)
          (search_event_logs db keyword service_name level limit) := by
  constructor
  · rw [search_event_logs, List.length_map, List.length_take]
    exact min_le_left _ _
  · have hs : List.Pairwise eventLogLe
        ((db.filter (eventLogMatches keyword service_name level)).insertionSort eventLogLe) :=
      List.sorted_insertionSort eventLogLe _
    have ht := hs.sublist (List.take_sublist limit _)
    exact List.pairwise_map.mpr (ht.imp (fun h => h))

/-- C6: every call of `get_all_hop_traces` with limit `N` returns at most `N`
records, sorted by timestamp descending with trace_id and then hop_index
ascending as tie-breaks among records sharing a timestamp. -/
theorem allHopTraces_limit_sorted (db : List HopRow) (limit : Nat) :
    (get_all_hop_traces db limit).length ≤ limit
      ∧ List.Pairwise (fun a b : HopRecord =>
          b.timestamp ≤ a.timestamp
            ∧ (a.timestamp = b.timestamp → a.trace_id ≤ b.trace_id)
            ∧ (a.timestamp = b.timestamp ∧ a.trace_id = b.trace_id →
                a.hop_index ≤ b.hop_index))
          (get_all_hop_traces db limit) := by
  constructor
  · rw [get_all_hop_traces, List.length_map, List.length_take]
    exact min_le_left _ _
  · have hs : List.Pairwise hopTsLex (db.insertionSort hopTsLex) :=
      List.sorted_insertionSort hopTsLex db
    have ht := hs.sublist (List.take_sublist limit _)
    exact List.pairwise_map.mpr (ht.imp (fun h => hopTsLex_elim _ _ h))

/-- C2: `get_hop_trace(T)` returns exactly the hop records of trace `T`,
sorted strictly ascending by hop_index — strictness holds under the store
invariant of §3 of the spec (hop_index values are distinct within one trace;
the store, not this system, guarantees it) — and for a trace with no rows it
returns an empty sequence, with no synthetic placeholder. -/
theorem hopTrace_sorted_and_empty (db : List HopRow) (T : String)
    (hnodup : ((db.filter (fun r => r.trace_id == T)).map (fun r => r.hop_index)).Nodup) :
    List.Pairwise (fun a b : HopRecord => a.hop_index < b.hop_index) (get_hop_trace db T)
      ∧ (get_hop_trace db T).Perm
          ((db.filter (fun r => r.trace_id == T)).map hopToRecord)
      ∧ ((∀ r ∈ db, r.trace_id ≠ T) → get_hop_trace db T = []) := by
  refine ⟨?_, ?_, ?_⟩
  · have hle : List.Pairwise hopIndexLe
        ((db.filter (fun r => r.trace_id == T)).insertionSort hopIndexLe) :=
      List.sorted_insertionSort hopIndexLe _
    have hperm := List.perm_insertionSort hopIndexLe (db.filter (fun r => r.trace_id == T))
    have hnodup2 : (((db.filter (fun r => r.trace_id == T)).insertionSort
        hopIndexLe).map (fun r => r.hop_index)).Nodup :=
      ((hperm.map (fun r => r.hop_index)).nodup_iff).mpr hnodup
    have hne : List.Pairwise (fun a b : HopRow => a.hop_index ≠ b.hop_index)
        ((db.filter (fun r => r.trace_id == T)).insertionSort hopIndexLe) :=
      List.pairwise_map.mp hnodup2
    exact List.pairwise_map.mpr ((hle.and hne).imp
      (fun h => lt_of_le_of_ne h.1 h.2))
  · exact (List.perm_insertionSort hopIndexLe _).map hopToRecord
  · intro h
    have hf : db.filter (fun r => r.trace_id == T) = [] :=
      List.filter_eq_nil_iff.mpr (fun r hr => by
        simpa [beq_iff_eq] using h r hr)
    rw [get_hop_trace, hf]
    rfl

/-- Witness for C2 at a concrete store: trace `"abc"` with hops 1 and 0 in
scrambled insertion order, and trace `"zzz"` absent. -/
theorem hopTrace_sorted_and_empty_witness :
    ((([⟨"abc", 1, "n1", 5, 2, "OK"⟩, ⟨"abc", 0, "n0", 4, 1, "OK"⟩] : List HopRow).filter
        (fun r => r.trace_id == "abc")).map (fun r => r.hop_index)).Nodup
      ∧ (List.Pairwise (fun a b : HopRecord => a.hop_index < b.hop_index)
            (get_hop_trace [⟨"abc", 1, "n1", 5, 2, "OK"⟩, ⟨"abc", 0, "n0", 4, 1, "OK"⟩] "abc")
          ∧ (get_hop_trace [⟨"abc", 1, "n1", 5, 2, "OK"⟩, ⟨"abc", 0, "n0", 4, 1, "OK"⟩]
              "abc").Perm
              ((([⟨"abc", 1, "n1", 5, 2, "OK"⟩, ⟨"abc", 0, "n0", 4, 1, "OK"⟩] : List HopRow).filter
                  (fun r => r.trace_id == "abc")).map hopToRecord)
          ∧ ((∀ r ∈ ([⟨"abc", 1, "n1", 5, 2, "OK"⟩, ⟨"abc", 0, "n0", 4, 1, "OK"⟩] : List HopRow),
                r.trace_id ≠ "abc") →
              get_hop_trace [⟨"abc", 1, "n1", 5, 2, "OK"⟩, ⟨"abc", 0, "n0", 4, 1, "OK"⟩] "abc" = [])) :=
  ⟨by decide, hopTrace_sorted_and_empty
    [⟨"abc", 1, "n1", 5, 2, "OK"⟩, ⟨"abc", 0, "n0", 4, 1, "OK"⟩] "abc" (by decide)⟩

/-- C7: when the `get_metrics_summary` query yields a non-empty row set, the
returned records are sorted ascending by service_name. -/
theorem metricsSummary_sorted_by_service (now : Int) (db : List ServiceMetricsRow)
    (service_name : Option String) (minutes : Int)
    (hne : db.filter (metricsRowMatches now minutes service_name) ≠ []) :
    List.Pairwise (fun a b : MetricsSummaryRecord => a.service_name ≤ b.service_name)
      (get_metrics_summary now db service_name minutes) := by
  have hgroups : serviceGroups (db.filter (metricsRowMatches now minutes service_name)) ≠ [] := by
    intro h
    have hperm := List.perm_insertionSort (fun a b : String => a ≤ b)
      ((db.filter (metricsRowMatches now minutes service_name)).map
        (fun r => r.service_name)).dedup
    rw [serviceGroups] at h
    rw [h] at hperm
    have hd := hperm.symm.eq_nil
    rw [List.dedup_eq_nil] at hd
    exact hne (List.map_eq_nil_iff.mp hd)
  have hrows : ¬ (metricsRows now db service_name minutes).isEmpty = true := by
    rw [List.isEmpty_iff, metricsRows, List.map_eq_nil_iff]
    exact hgroups
  rw [get_metrics_summary, if_neg hrows]
  have hsorted : List.Pairwise (fun a b : String => a ≤ b)
      (serviceGroups (db.filter (metricsRowMatches now minutes service_name))) :=
    List.sorted_insertionSort _ _
  exact List.pairwise_map.mpr (hsorted.imp (fun h => h))

/-- Witness for C7 at a one-row store inside the ten-minute window. -/
theorem metricsSummary_sorted_by_service_witness :
    ([⟨"order-api", 0, 100, 0, 20⟩] : List ServiceMetricsRow).filter
        (metricsRowMatches 0 10 none) ≠ []
      ∧ List.Pairwise (fun a b : MetricsSummaryRecord => a.service_name ≤ b.service_name)
          (get_metrics_summary 0 [⟨"order-api", 0, 100, 0, 20⟩] none 10) :=
  ⟨by decide, metricsSummary_sorted_by_service 0 [⟨"order-api", 0, 100, 0, 20⟩] none 10
    (by decide)⟩

/-- C10: with a non-empty service_name argument, `get_metrics_summary` returns
exactly one record: the single-service filter under `GROUP BY` yields at most
one aggregate row, and the zero-row branch yields exactly one placeholder. -/
theorem metricsSummary_single_service_length_one (now : Int)
    (db : List ServiceMetricsRow) (s : String) (minutes : Int) (hs : s ≠ "") :
    (get_metrics_summary now db (some s) minutes).length = 1 := by
  have hse : s.isEmpty = false := by
    rw [Bool.eq_false_iff]
    intro hc
    exact hs ((String.isEmpty_iff s).mp hc)
  have hall : ∀ x ∈ serviceGroups (db.filter (metricsRowMatches now minutes (some s))), x = s := by
    intro x hx
    rw [serviceGroups] at hx
    have hx2 := (List.perm_insertionSort (fun a b : String => a ≤ b) _).mem_iff.mp hx
    rw [List.mem_dedup, List.mem_map] at hx2
    obtain ⟨r, hr, rfl⟩ := hx2
    rw [List.mem_filter, metricsRowMatches, Bool.and_eq_true] at hr
    have := hr.2.2
    rw [optFilter] at this
    rw [hse] at this
    simpa [beq_iff_eq] using this
  have hnd : (serviceGroups (db.filter (metricsRowMatches now minutes (some s)))).Nodup :=
    (List.perm_insertionSort (fun a b : String => a ≤ b) _).nodup_iff.mpr
      (List.nodup_dedup _)
  rcases nodup_const_eq_nil_or_singleton _ s hnd hall with h | h
  · rw [get_metrics_summary, if_pos (by rw [List.isEmpty_iff, metricsRows, h]; rfl)]
    rfl
  · rw [get_metrics_summary, if_neg (by rw [List.isEmpty_iff, metricsRows, h]; simp)]
    rw [metricsRows, h]
    rfl

/-- Witness for C10 at an empty store and at a one-row store. -/
theorem metricsSummary_single_service_length_one_witness :
    ("order-api" : String) ≠ ""
      ∧ (get_metrics_summary 0 [] (some "order-api") 10).length = 1
      ∧ (get_metrics_summary 0 [⟨"order-api", 0, 100, 0, 20⟩] (some "order-api") 10).length = 1 :=
  ⟨by decide,
    metricsSummary_single_service_length_one 0 [] "order-api" 10 (by decide),
    metricsSummary_single_service_length_one 0 [⟨"order-api", 0, 100, 0, 20⟩]
      "order-api" 10 (by decide)⟩

/-- C1 counterexample: the zero-row placeholder does not echo a supplied but
empty service filter.  `get_metrics_summary(service_name="")` on an empty
store yields zero rows and a filter that was given (`some ""`), yet the
placeholder's service_name is `"<all>"`, not the supplied `""`: Python's
`if service_name:` and `service_name or "<all>"` treat `""` as absent. -/
theorem metricsSummary_empty_filter_counterexample :
    (get_metrics_summary 0 [] (some "") 10).map (fun r => r.service_name) = ["<all>"]
      ∧ ("<all>" : String) ≠ "" := by
  constructor
  · rfl
  · decide

/-- C1 (amended): for every call of `get_metrics_summary` whose query yields
zero rows, the function returns exactly one record — never an empty sequence —
whose service_name equals the supplied service filter when a non-empty one was
given and `"<all>"` when the filter was absent or empty, whose four metrics
are all zero, and which carries a non-empty note. -/
theorem metricsSummary_placeholder_on_empty (now : Int) (db : List ServiceMetricsRow)
    (service_name : Option String) (minutes : Int)
    (hempty : db.filter (metricsRowMatches now minutes service_name) = []) :
    ∃ rec, get_metrics_summary now db service_name minutes = [rec]
      ∧ (∀ s, service_name = some s → s ≠ "" → rec.service_name = s)
      ∧ (service_name = none ∨ service_name = some "" → rec.service_name = "<all>")
      ∧ rec.minutes = minutes
      ∧ rec.avg_tps = 0 ∧ rec.max_tps = 0 ∧ rec.avg_error_rate = 0
      ∧ rec.avg_latency_p95 = 0
      ∧ rec.note = some noDataNote ∧ noDataNote ≠ "" := by
  have hrows : (metricsRows now db service_name minutes).isEmpty = true := by
    rw [List.isEmpty_iff, metricsRows, hempty]
    rfl
  rw [get_metrics_summary, if_pos hrows]
  refine ⟨_, rfl, ?_, ?_, rfl, rfl, rfl, rfl, rfl, rfl, by decide⟩
  · rintro s rfl hs
    have hse : s.isEmpty = false := by
      rw [Bool.eq_false_iff]
      intro hc
      exact hs ((String.isEmpty_iff s).mp hc)
    simp [orAll, hse]
  · rintro (rfl | rfl) <;> rfl

/-- Witness for C1 (amended) at an empty store with a non-empty filter. -/
theorem metricsSummary_placeholder_on_empty_witness :
    ([] : List ServiceMetricsRow).filter (metricsRowMatches 0 10 (some "order-api")) = []
      ∧ ∃ rec, get_metrics_summary 0 [] (some "order-api") 10 = [rec]
        ∧ (∀ s, (some "order-api" : Option String) = some s → s ≠ "" → rec.service_name = s)
        ∧ ((some "order-api" : Option String) = none ∨ (some "order-api" : Option String) = some "" →
            rec.service_name = "<all>")
        ∧ rec.minutes = 10
        ∧ rec.avg_tps = 0 ∧ rec.max_tps = 0 ∧ rec.avg_error_rate = 0
        ∧ rec.avg_latency_p95 = 0
        ∧ rec.note = some noDataNote ∧ noDataNote ≠ "" :=
  ⟨rfl, metricsSummary_placeholder_on_empty 0 [] (some "order-api") 10 rfl⟩

/-- C3 counterexample, two parts.  (a) A keyword containing a `LIKE`
metacharacter: with keyword `"_"`, the pattern `%_%` matches any row whose
message has at least one character, so a row whose message is `"boom"` and
code is `"X123"` is returned although neither field contains `"_"` as a
case-insensitive substring.  (b) A supplied but empty service filter: with
`service_name=""` the `AND service_name = %s` condition is never added
(Python truthiness), so a returned record need not satisfy the supplied
exact-match value `""`. -/
theorem searchLogs_wildcard_counterexample :
    (search_event_logs [⟨"svc", 0, "ERROR", "X123", "boom"⟩] "_" none none 50
        = [⟨"svc", 0, "ERROR", "X123", "boom"⟩]
      ∧ containsSubstrCI "_" "boom" = false
      ∧ containsSubstrCI "_" "X123" = false)
      ∧ (search_event_logs [⟨"svc2", 0, "INFO", "E9", "an error here"⟩] "error"
          (some "") none 50 = [⟨"svc2", 0, "INFO", "E9", "an error here"⟩]
        ∧ ("svc2" : String) ≠ "") := by
  refine ⟨⟨?_, ?_, ?_⟩, ?_, ?_⟩ <;> decide

/-- C3 (amended): for every keyword free of the `LIKE` metacharacters `%`,
`_` and `\`, every record returned by `search_event_logs` contains the keyword
as a case-insensitive substring of its message or of its code, and matches
every supplied non-empty exact-match filter (service_name, level); an empty
filter value behaves as absent. -/
theorem searchLogs_match_amended (db : List EventLogRow) (keyword : String)
    (service_name level : Option String) (limit : Nat)
    (hkw : NoLikeWild keyword.data) :
    ∀ rec ∈ search_event_logs db keyword service_name level limit,
      (containsSubstrCI keyword rec.message || containsSubstrCI keyword rec.code) = true
        ∧ (∀ s, service_name = some s → s ≠ "" → rec.service_name = s)
        ∧ (∀ s, level = some s → s ≠ "" → rec.level = s) := by
  intro rec hrec
  rw [search_event_logs] at hrec
  rcases List.mem_map.mp hrec with ⟨r, hr, rfl⟩
  have hr2 : r ∈ db.filter (eventLogMatches keyword service_name level) :=
    mem_of_mem_sortTake eventLogLe _ limit r hr
  rw [List.mem_filter] at hr2
  have hmatch := hr2.2
  rw [eventLogMatches, Bool.and_eq_true, Bool.and_eq_true, Bool.or_eq_true] at hmatch
  obtain ⟨⟨hkwm, hsn⟩, hlvl⟩ := hmatch
  refine ⟨?_, ?_, ?_⟩
  · rw [Bool.or_eq_true]
    rcases hkwm with h | h
    · exact Or.inl ((ilike_wrap_iff keyword r.message hkw).mp h)
    · exact Or.inr ((ilike_wrap_iff keyword r.code hkw).mp h)
  · rintro s rfl hs
    have hse : s.isEmpty = false := by
      rw [Bool.eq_false_iff]
      intro hc
      exact hs ((String.isEmpty_iff s).mp hc)
    rw [optFilter, hse] at hsn
    simpa [beq_iff_eq] using hsn
  · rintro s rfl hs
    have hse : s.isEmpty = false := by
      rw [Bool.eq_false_iff]
      intro hc
      exact hs ((String.isEmpty_iff s).mp hc)
    rw [optFilter, hse] at hlvl
    simpa [beq_iff_eq] using hlvl

/-- Witness for C3 (amended): keyword `"err"` (no metacharacters) over a
two-row store with both filters supplied non-empty. -/
theorem searchLogs_match_amended_witness :
    NoLikeWild ("err" : String).data
      ∧ ∀ rec ∈ search_event_logs
          [⟨"api", 9, "ERROR", "E1", "an ERRor here"⟩, ⟨"db", 3, "INFO", "X", "fine"⟩]
          "err" (some "api") (some "ERROR") 50,
        (containsSubstrCI "err" rec.message || containsSubstrCI "err" rec.code) = true
          ∧ (∀ s, (some "api" : Option String) = some s → s ≠ "" → rec.service_name = s)
          ∧ (∀ s, (some "ERROR" : Option String) = some s → s ≠ "" → rec.level = s) :=
  ⟨by decide, searchLogs_match_amended
    [⟨"api", 9, "ERROR", "E1", "an ERRor here"⟩, ⟨"db", 3, "INFO", "X", "fine"⟩]
    "err" (some "api") (some "ERROR") 50 (by decide)⟩

/-- C4 counterexample: with `LIMIT 1`, the service-filtered result is not a
subset of the unfiltered one.  Two keyword-matching rows: `"s1"` at instant 10
and `"s2"` at instant 5.  Unfiltered, the limit keeps only the most recent row
(`"s1"`); filtered by `"s2"`, the limit keeps the `"s2"` row, which the
unfiltered result does not contain. -/
theorem searchLogs_filter_subset_counterexample :
    search_event_logs
        [⟨"s1", 10, "INFO", "E1", "an error here"⟩, ⟨"s2", 5, "INFO", "E2", "error too"⟩]
        "error" (some "s2") none 1 = [⟨"s2", 5, "INFO", "E2", "error too"⟩]
      ∧ search_event_logs
          [⟨"s1", 10, "INFO", "E1", "an error here"⟩, ⟨"s2", 5, "INFO", "E2", "error too"⟩]
          "error" none none 1 = [⟨"s1", 10, "INFO", "E1", "an error here"⟩]
      ∧ (⟨"s2", 5, "INFO", "E2", "error too"⟩ : EventLogRecord)
          ∉ [(⟨"s1", 10, "INFO", "E1", "an error here"⟩ : EventLogRecord)] := by
  refine ⟨?_, ?_, ?_⟩ <;> decide

/-- C4 (amended): adding a service_name filter narrows the result — every
record of the filtered call appears in the unfiltered call — whenever the
unfiltered call is not truncated, i.e. the number of keyword-and-level
matching rows does not exceed the limit. -/
theorem searchLogs_filter_subset_amended (db : List EventLogRow) (keyword : String)
    (S : String) (level : Option String) (limit : Nat)
    (hfit : (db.filter (eventLogMatches keyword none level)).length ≤ limit) :
    search_event_logs db keyword (some S) level limit
      ⊆ search_event_logs db keyword none level limit := by
  intro rec hrec
  rw [search_event_logs] at hrec ⊢
  rcases List.mem_map.mp hrec with ⟨r, hr, rfl⟩
  refine List.mem_map.mpr ⟨r, ?_, rfl⟩
  have hr2 : r ∈ db.filter (eventLogMatches keyword (some S) level) :=
    mem_of_mem_sortTake eventLogLe _ limit r hr
  rw [List.mem_filter] at hr2
  have hmatch2 : eventLogMatches keyword none level r = true := by
    have hm := hr2.2
    rw [eventLogMatches, Bool.and_eq_true, Bool.and_eq_true] at hm ⊢
    exact ⟨⟨hm.1.1, rfl⟩, hm.2⟩
  have hmemf : r ∈ db.filter (eventLogMatches keyword none level) :=
    List.mem_filter.mpr ⟨hr2.1, hmatch2⟩
  have hperm := List.perm_insertionSort eventLogLe (db.filter (eventLogMatches keyword none level))
  have hlen : ((db.filter (eventLogMatches keyword none level)).insertionSort
      eventLogLe).length ≤ limit := by
    rw [hperm.length_eq]
    exact hfit
  rw [List.take_of_length_le hlen]
  exact hperm.mem_iff.mpr hmemf

/-- Witness for C4 (amended): the same two-row store with a limit large enough
to avoid truncation. -/
theorem searchLogs_filter_subset_amended_witness :
    (([⟨"s1", 10, "INFO", "E1", "an error here"⟩, ⟨"s2", 5, "INFO", "E2", "error too"⟩] :
        List EventLogRow).filter (eventLogMatches "error" none none)).length ≤ 50
      ∧ search_event_logs
          [⟨"s1", 10, "INFO", "E1", "an error here"⟩, ⟨"s2", 5, "INFO", "E2", "error too"⟩]
          "error" (some "s2") none 50
        ⊆ search_event_logs
            [⟨"s1", 10, "INFO", "E1", "an error here"⟩, ⟨"s2", 5, "INFO", "E2", "error too"⟩]
            "error" none none 50 :=
  ⟨by decide, searchLogs_filter_subset_amended
    [⟨"s1", 10, "INFO", "E1", "an error here"⟩, ⟨"s2", 5, "INFO", "E2", "error too"⟩]
    "error" "s2" none 50 (by decide)⟩

/-- C8: the SQL text submitted to the store depends only on which optional
arguments are truthy, never on any argument's value: across any two calls of
the same operation whose optional arguments have the same truthiness, the SQL
strings are identical, every user-supplied value travelling only through the
positional parameter list. -/
theorem sql_text_depends_only_on_shape
    (sn1 sn2 lvl1 lvl2 : Option String) (kw1 kw2 : String) (m1 m2 : Int)
    (lim1 lim2 lim3 lim4 : Int) (t1 t2 : String)
    (hsn : truthy sn1 = truthy sn2) (hlvl : truthy lvl1 = truthy lvl2) :
    (get_metrics_summary_query sn1 m1).1 = (get_metrics_summary_query sn2 m2).1
      ∧ (search_event_logs_query kw1 sn1 lvl1 lim1).1
          = (search_event_logs_query kw2 sn2 lvl2 lim2).1
      ∧ (get_hop_trace_query t1).1 = (get_hop_trace_query t2).1
      ∧ (get_all_hop_traces_query lim3).1 = (get_all_hop_traces_query lim4).1 := by
  refine ⟨?_, ?_, rfl, rfl⟩
  · rw [get_metrics_summary_query, get_metrics_summary_query, hsn]
    cases truthy sn2 <;> rfl
  · rw [search_event_logs_query, search_event_logs_query, hsn, hlvl]
    cases truthy sn2 <;> cases truthy lvl2 <;> rfl

/-- Witness for C8: two calls with different values but the same truthiness
pattern (service filter given, level filter absent). -/
theorem sql_text_depends_only_on_shape_witness :
    truthy (some "api") = truthy (some "db")
      ∧ truthy (none : Option String) = truthy (none : Option String)
      ∧ ((get_metrics_summary_query (some "api") 10).1
            = (get_metrics_summary_query (some "db") 99).1
          ∧ (search_event_logs_query "err" (some "api") none 50).1
              = (search_event_logs_query "boom" (some "db") none 7).1
          ∧ (get_hop_trace_query "abc").1 = (get_hop_trace_query "xyz").1
          ∧ (get_all_hop_traces_query 100).1 = (get_all_hop_traces_query 3).1) :=
  ⟨rfl, rfl, sql_text_depends_only_on_shape (some "api") (some "db") none none
    "err" "boom" 10 99 50 7 100 3 "abc" "xyz" rfl rfl⟩

/-- C9: in every operation body, when execute-and-fetch raises after the
connection was opened, the explicit `cur.close()` and `conn.close()` calls are
skipped — the handles stay open and no result is produced — while on the
success (including zero-row) path both close calls run and the connection is
released. -/
theorem close_skipped_on_error (now minutes : Int) (dbm : List ServiceMetricsRow)
    (dbe : List EventLogRow) (dbh : List HopRow) (service_name level : Option String)
    (keyword trace_id : String) (lim1 lim2 : Nat) :
    (get_metrics_summary_proc now dbm service_name minutes false ⟨false, false⟩
          = (none, ⟨true, true⟩)
        ∧ get_metrics_summary_proc now dbm service_name minutes true ⟨false, false⟩
          = (some (get_metrics_summary now dbm service_name minutes), ⟨false, false⟩))
      ∧ (search_event_logs_proc dbe keyword service_name level lim1 false ⟨false, false⟩
            = (none, ⟨true, true⟩)
          ∧ search_event_logs_proc dbe keyword service_name level lim1 true ⟨false, false⟩
            = (some (search_event_logs dbe keyword service_name level lim1), ⟨false, false⟩))
      ∧ (get_hop_trace_proc dbh trace_id false ⟨false, false⟩ = (none, ⟨true, true⟩)
          ∧ get_hop_trace_proc dbh trace_id true ⟨false, false⟩
            = (some (get_hop_trace dbh trace_id), ⟨false, false⟩))
      ∧ (get_all_hop_traces_proc dbh lim2 false ⟨false, false⟩ = (none, ⟨true, true⟩)
          ∧ get_all_hop_traces_proc dbh lim2 true ⟨false, false⟩
            = (some (get_all_hop_traces dbh lim2), ⟨false, false⟩)) :=
  ⟨⟨rfl, rfl⟩, ⟨rfl, rfl⟩, ⟨rfl, rfl⟩, ⟨rfl, rfl⟩⟩
